import Mathlib

/-!
Shallow embedding of the echo2 configuration-driven HTTP responder
(`configs` route model and the `main` package request-resolution engine):
route/condition data model, header-condition matching, delay-parameter
parsing (Go `time.ParseDuration` and `strconv.Atoi` semantics), the
cancellable sleeper, response composition, and the request-dump JSON
marshalling, together with theorems settling the specification claims.

Conventions of the embedding:
* Go maps (`map[string]string`) are modelled as association lists with
  unique keys, built by last-write-wins insertion (`setPair`/`extractPairs`).
* Go `int`/`int64`/`time.Duration` are modelled as `Int` with explicit
  two's-complement wrapping (`wrap64`) exactly where Go arithmetic can
  overflow; `uint64` intermediates in duration parsing are `Nat` with the
  source's explicit bound checks (reduction modulo `2 ^ 64` where the Go
  code can wrap).
* Blocking (`sleepWithCancellation`) is modelled by an explicit boolean
  `shutdownWins` saying whether the shutdown broadcast wins the race
  against the timer.
-/

namespace Echo2

/-! ## ASCII case folding (Go `strings.EqualFold`, fasthttp key normalization)

Header names are ASCII; `strings.EqualFold` is modelled on its ASCII
fast path (byte-wise ASCII case folding). -/

/-- Lowercase an ASCII letter, leave every other character unchanged. -/
def asciiLower (c : Char) : Char :=
  if 'A' ≤ c ∧ c ≤ 'Z' then Char.ofNat (c.toNat + 32) else c

/-- Uppercase an ASCII letter, leave every other character unchanged. -/
def asciiUpper (c : Char) : Char :=
  if 'a' ≤ c ∧ c ≤ 'z' then Char.ofNat (c.toNat - 32) else c

/-- Go `strings.EqualFold` on header names (ASCII case folding): the two
strings agree character-by-character after ASCII lowercasing. -/
def eqFold (s t : String) : Bool :=
  s.data.map asciiLower == t.data.map asciiLower

/-! ## Route data model (`configs` package)

`Route` and `RouteCondition` mirror the YAML-backed structs; a `nil`
header map is `none`, a present map is `some` association list. -/

/-- `configs.RouteCondition`: a conditional response override guarded by
required request headers. -/
structure RouteCondition where
  HeaderMatch : List (String × String)
  ResponseBody : String
  ResponseHeader : Option (List (String × String))
  ResponseStatus : Int
  deriving Repr, DecidableEq

/-- `configs.Route`: one route rule of the validated route table. -/
structure Route where
  Path : String
  Method : String
  ResponseBody : String
  ResponseHeader : Option (List (String × String))
  ResponseStatus : Int
  ResponseDump : Bool
  Conditions : List RouteCondition
  deriving Repr, DecidableEq

/-- `Route.GetMethod`: defaults to GET when unset. -/
def Route.GetMethod (r : Route) : String :=
  if r.Method = "" then "GET" else r.Method

/-- `Route.GetResponseBody`. -/
def Route.GetResponseBody (r : Route) : String := r.ResponseBody

/-- `Route.GetResponseHeaders`: a `nil` map becomes an empty map. -/
def Route.GetResponseHeaders (r : Route) : List (String × String) :=
  r.ResponseHeader.getD []

/-- `Route.GetResponseStatus`: a zero status defaults to 200. -/
def Route.GetResponseStatus (r : Route) : Int :=
  if r.ResponseStatus = 0 then 200 else r.ResponseStatus

/-- `Route.GetResponseDump`. -/
def Route.GetResponseDump (r : Route) : Bool := r.ResponseDump

/-- `RouteCondition.GetResponseBody`. -/
def RouteCondition.GetResponseBody (c : RouteCondition) : String := c.ResponseBody

/-- `RouteCondition.GetResponseHeaders`: a `nil` map becomes an empty map. -/
def RouteCondition.GetResponseHeaders (c : RouteCondition) : List (String × String) :=
  c.ResponseHeader.getD []

/-- `RouteCondition.GetResponseStatus`: a zero status defaults to 200. -/
def RouteCondition.GetResponseStatus (c : RouteCondition) : Int :=
  if c.ResponseStatus = 0 then 200 else c.ResponseStatus

/-- `RouteCondition.MatchesHeaders`: every required `(name, value)` pair
must be matched by some request header, name compared case-insensitively
(`strings.EqualFold`), value compared exactly. -/
def RouteCondition.MatchesHeaders (c : RouteCondition)
    (requestHeaders : List (String × String)) : Bool :=
  c.HeaderMatch.all fun expected =>
    requestHeaders.any fun actual =>
      eqFold expected.1 actual.1 && actual.2 == expected.2

/-- The condition-scanning loop of `Server.handleRoute`: the first
condition in declared order whose `MatchesHeaders` holds. -/
def firstMatch (conds : List RouteCondition)
    (requestHeaders : List (String × String)) : Option RouteCondition :=
  conds.find? fun c => c.MatchesHeaders requestHeaders

/-! ## Maps and response headers

Go map writes and fasthttp header `Set` both replace an existing entry
for the key and append otherwise. fasthttp normalizes header keys
(ASCII-uppercase the first character and each character following a
dash, ASCII-lowercase the rest). -/

/-- Insert `(k, v)` into an association list, replacing an existing
entry for `k` (Go map write / fasthttp `setArg`). -/
def setPair : List (String × String) → String → String → List (String × String)
  | [], k, v => [(k, v)]
  | p :: rest, k, v => if p.1 = k then (k, v) :: rest else p :: setPair rest k v

/-- fasthttp `normalizeHeaderKey` on the character list: uppercase at the
start and after each dash, lowercase elsewhere. -/
def normalizeChars : Bool → List Char → List Char
  | _, [] => []
  | up, c :: rest =>
    if c = '-' then c :: normalizeChars true rest
    else (if up then asciiUpper c else asciiLower c) :: normalizeChars false rest

/-- fasthttp `normalizeHeaderKey` on a header name. -/
def normalizeHeaderKey (s : String) : String :=
  String.mk (normalizeChars true s.data)

/-- fasthttp `ResponseHeader.Set`: store under the normalized key,
replacing an existing entry. -/
def headerSet (hs : List (String × String)) (k v : String) : List (String × String) :=
  setPair hs (normalizeHeaderKey k) v

/-- fasthttp `ResponseHeader.Peek`: look up the normalized key. -/
def headerPeek (hs : List (String × String)) (k : String) : Option String :=
  (hs.find? fun p => p.1 == normalizeHeaderKey k).map Prod.snd

/-- `Server.extractHeaders` / `Server.extractQueryParameters`: build a
Go map from visited key/value pairs, last write wins. -/
def extractPairs (pairs : List (String × String)) : List (String × String) :=
  pairs.foldl (fun m p => setPair m p.1 p.2) []

/-- The request abstraction the engine consumes: the header pairs and
query-parameter pairs the transport delivers, and the raw value of the
`delay` query parameter (`QueryArgs().Peek("delay")`, empty when
absent). -/
structure Request where
  headerPairs : List (String × String)
  queryPairs : List (String × String)
  delayRaw : String
  deriving Repr, DecidableEq

/-! ## Request-dump JSON (`json.MarshalIndent(dump, "", "  ")`)

Go `encoding/json` marshals `RequestDump` fields in declaration order
(`headers`, then `query_parameters`), sorts map keys byte-wise, escapes
`"` `\` and control characters, and HTML-escapes `<` `>` `&` (plus
U+2028/U+2029) as `\uXXXX` with lowercase hex. -/

/-- Lowercase hexadecimal digit. -/
def hexDigit (n : Nat) : Char :=
  if n < 10 then Char.ofNat ('0'.toNat + n) else Char.ofNat ('a'.toNat + n - 10)

/-- Go `encoding/json` string escaping (with HTML escaping, the
`json.Marshal` default) of one character. -/
def jsonEscapeChar (c : Char) : List Char :=
  if c = '"' then ['\\', '"']
  else if c = '\\' then ['\\', '\\']
  else if c = '<' ∨ c = '>' ∨ c = '&' then
    ['\\', 'u', '0', '0', hexDigit (c.toNat / 16), hexDigit (c.toNat % 16)]
  else if c = '\n' then ['\\', 'n']
  else if c = '\r' then ['\\', 'r']
  else if c = '\t' then ['\\', 't']
  else if c.toNat < 0x20 then
    ['\\', 'u', '0', '0', hexDigit (c.toNat / 16), hexDigit (c.toNat % 16)]
  else if c.toNat = 0x2028 ∨ c.toNat = 0x2029 then
    ['\\', 'u', '2', '0', '2', hexDigit (c.toNat % 16)]
  else [c]

/-- Go `encoding/json` quoting of a string value or object key. -/
def jsonQuote (s : String) : String :=
  "\"" ++ String.mk (s.data.map jsonEscapeChar).flatten ++ "\""

/-- Insert an entry into a key-sorted list, keeping keys ascending. -/
def insertSorted (p : String × String) : List (String × String) → List (String × String)
  | [] => [p]
  | q :: rest => if p.1 ≤ q.1 then p :: q :: rest else q :: insertSorted p rest

/-- Sort map entries by key, byte-wise ascending (`encoding/json` sorts
map keys before marshalling; byte order on UTF-8 equals code-point
order, which is `String` order; map keys are unique, so any sort
produces the same entry list). -/
def sortPairs : List (String × String) → List (String × String)
  | [] => []
  | p :: rest => insertSorted p (sortPairs rest)

/-- `json.MarshalIndent` rendering of a `map[string]string` whose opening
brace sits at indentation `indent`: `{}` when empty, otherwise one
`"key": "value"` entry per line, keys sorted, two extra spaces per
level. -/
def marshalStringMapIndent (m : List (String × String)) (indent : String) : String :=
  match sortPairs m with
  | [] => "\x7b\x7d"
  | entries =>
    "\x7b\n" ++
      String.intercalate ",\n"
        (entries.map fun p => indent ++ "  " ++ jsonQuote p.1 ++ ": " ++ jsonQuote p.2) ++
      "\n" ++ indent ++ "\x7d"

/-- `json.MarshalIndent(RequestDump{...}, "", "  ")`: the dump body with
exactly the two top-level keys `headers` and `query_parameters` in the
struct's field order, 2-space indentation. -/
def requestDumpJSON (headers queryParams : List (String × String)) : String :=
  "\x7b\n  \"headers\": " ++ marshalStringMapIndent headers "  " ++
    ",\n  \"query_parameters\": " ++ marshalStringMapIndent queryParams "  " ++ "\n\x7d"

/-! ## Delay parsing

`Server.parseDelayParam` tries Go `time.ParseDuration`, falls back to
`strconv.Atoi` interpreted as milliseconds, and otherwise propagates the
duration parser's error. Durations are `int64` nanosecond counts;
`uint64` intermediates are `Nat` with the source's explicit overflow
checks. -/

/-- Go digit test (`'0' <= c && c <= '9'`). -/
def goIsDigit (c : Char) : Bool := '0' ≤ c && c ≤ '9'

/-- Numeric value of a digit character. -/
def digitVal (c : Char) : Nat := c.toNat - '0'.toNat

/-- `time.leadingInt`: consume leading digits into a `uint64`
accumulator; `none` on overflow past `2 ^ 63`. -/
def leadingInt : List Char → Nat → Option (Nat × List Char)
  | [], x => some (x, [])
  | c :: rest, x =>
    if ¬ goIsDigit c then some (x, c :: rest)
    else if x > 2 ^ 63 / 10 then none
    else
      let y := x * 10 + digitVal c
      if y > 2 ^ 63 then none
      else leadingInt rest y

/-- `time.leadingFraction`: consume fractional digits; on overflow the
remaining digits are consumed without updating the value or the scale.
Returns the accumulated digits, the count of accepted digits (Go's
`float64` scale accumulator is `scaleFloat count`), and the rest of the
input. -/
def leadingFraction : List Char → Nat → Nat → Bool → Nat × Nat × List Char
  | [], x, k, _ => (x, k, [])
  | c :: rest, x, k, overflow =>
    if ¬ goIsDigit c then (x, k, c :: rest)
    else if overflow then leadingFraction rest x k true
    else if x > (2 ^ 63 - 1) / 10 then leadingFraction rest x k true
    else
      let y := x * 10 + digitVal c
      if y > 2 ^ 63 then leadingFraction rest x k true
      else leadingFraction rest y (k + 1) false

/-- The unit-name consumption loop of `time.ParseDuration`: take
characters until a digit or a dot. -/
def consumeUnit : List Char → List Char × List Char
  | [] => ([], [])
  | c :: rest =>
    if c = '.' ∨ goIsDigit c then ([], c :: rest)
    else
      let (u, r) := consumeUnit rest
      (c :: u, r)

/-- `time.unitMap`: nanoseconds per unit suffix. -/
def unitMap (u : String) : Option Nat :=
  if u = "ns" then some 1
  else if u = "us" then some 1000
  else if u = "µs" then some 1000
  else if u = "μs" then some 1000
  else if u = "ms" then some 1000000
  else if u = "s" then some 1000000000
  else if u = "m" then some 60000000000
  else if u = "h" then some 3600000000000
  else none

/-! ### Exact IEEE binary64 simulation for the fractional contribution

Go computes the fractional part of a duration segment as
`v += uint64(float64(f) * (float64(unit) / scale))`, with `scale` built
by repeated `scale *= 10`, all in `float64`. These operations are
simulated exactly: a float value is carried as a dyadic pair `(m, e)`
with value `m * 2 ^ e`, and every conversion, multiplication, and
division rounds its exact result to 53 significant bits, ties to even,
just as IEEE binary64 does. Overflow and subnormal ranges need no
special cases here: whenever the final truncated contribution can be
non-zero, every intermediate value lies well inside the normal range
(the product is at most about `2 ^ 63 * 3.6e12`, and a non-zero floor
forces `scale` below about `3.4e31`); outside it both the real float
path and this dyadic path truncate to zero. -/

/-- Whether the positive rational `num / den` is at least `2 ^ e`. -/
def ratGePow2 (num den : Nat) (e : Int) : Bool :=
  if 0 ≤ e then den * 2 ^ e.toNat ≤ num
  else den ≤ num * 2 ^ (-e).toNat

/-- Floor of the base-2 logarithm of the positive rational `num / den`. -/
def floorLog2 (num den : Nat) : Int :=
  let c : Int := (Nat.log2 num : Int) - (Nat.log2 den : Int)
  if ratGePow2 num den (c + 1) then c + 1
  else if ratGePow2 num den c then c
  else c - 1

/-- Round the nonnegative rational `num / den` to the nearest IEEE
binary64 value (53 significant bits, ties to even), returned as a
dyadic pair `(m, e)` of value `m * 2 ^ e`. -/
def roundFloat (num den : Nat) : Nat × Int :=
  if num = 0 then (0, 0)
  else
    let e : Int := floorLog2 num den - 52
    let (n2, d2) : Nat × Nat :=
      if 0 ≤ e then (num, den * 2 ^ e.toNat) else (num * 2 ^ (-e).toNat, den)
    let q := n2 / d2
    let r := n2 % d2
    let m :=
      if d2 < 2 * r then q + 1
      else if 2 * r < d2 then q
      else if q % 2 = 0 then q else q + 1
    (m, e)

/-- IEEE binary64 division of two dyadic float values. -/
def fdivDouble (a b : Nat × Int) : Nat × Int :=
  let p := roundFloat a.1 b.1
  (p.1, p.2 + a.2 - b.2)

/-- IEEE binary64 multiplication of two dyadic float values. -/
def fmulDouble (a b : Nat × Int) : Nat × Int :=
  let p := roundFloat (a.1 * b.1) 1
  (p.1, p.2 + a.2 + b.2)

/-- Go's `scale` accumulator in `time.leadingFraction`: `k` successive
`float64` multiplications by 10 starting from 1 (exact up to `10 ^ 22`,
rounded beyond). -/
def scaleFloat : Nat → Nat × Int
  | 0 => (1, 0)
  | k + 1 => fmulDouble (scaleFloat k) (10, 0)

/-- Truncate a nonnegative dyadic float value toward zero to an integer
(the Go `uint64(...)` conversion of the nonnegative product). -/
def dyadicFloor (a : Nat × Int) : Nat :=
  if 0 ≤ a.2 then a.1 * 2 ^ a.2.toNat else a.1 / 2 ^ (-a.2).toNat

/-- Go `uint64(float64(f) * (float64(unit) / scale))` where `scale` is
the `float64` accumulator for `k` accepted fractional digits:
`float64(f)` rounds the integer `f`, `float64(unit)` is exact
(`unit ≤ 3.6e12 < 2 ^ 53`), the division and the multiplication each
round once, and the product is truncated. -/
def fracContribution (f unit k : Nat) : Nat :=
  dyadicFloor (fmulDouble (roundFloat f 1) (fdivDouble (unit, 0) (scaleFloat k)))

/-- UTF-8 encoding of a character, as byte values. -/
def utf8Bytes (c : Char) : List Nat :=
  let n := c.toNat
  if n < 0x80 then [n]
  else if n < 0x800 then [0xC0 + n / 64, 0x80 + n % 64]
  else if n < 0x10000 then [0xE0 + n / 4096, 0x80 + n / 64 % 64, 0x80 + n % 64]
  else [0xF0 + n / 262144, 0x80 + n / 4096 % 64, 0x80 + n / 64 % 64, 0x80 + n % 64]

/-- `time.quote` on one character: printable ASCII is kept (`"` and `\`
backslash-escaped); control and non-ASCII characters are emitted as
`\xhh` per UTF-8 byte. -/
def quoteChar (c : Char) : List Char :=
  if 0x80 ≤ c.toNat ∨ c.toNat < 0x20 then
    ((utf8Bytes c).map fun b => ['\\', 'x', hexDigit (b / 16), hexDigit (b % 16)]).flatten
  else if c = '"' ∨ c = '\\' then ['\\', c]
  else [c]

/-- `time.quote`: wrap in double quotes, escaping as Go does in its
duration error messages. -/
def quote (s : String) : String :=
  "\"" ++ String.mk (s.data.map quoteChar).flatten ++ "\""

/-- The `time: invalid duration %q` error text. -/
def errInvalidDuration (orig : String) : String :=
  "time: invalid duration " ++ quote orig

/-- The `time: missing unit in duration %q` error text. -/
def errMissingUnit (orig : String) : String :=
  "time: missing unit in duration " ++ quote orig

/-- The `time: unknown unit %q in duration %q` error text. -/
def errUnknownUnit (u orig : String) : String :=
  "time: unknown unit " ++ quote u ++ " in duration " ++ quote orig

/-- The main loop of `time.ParseDuration`, accumulating the `uint64`
magnitude `d`. Each iteration parses digits, an optional fraction, and a
unit, with the source's overflow checks; `d + v` reduces modulo `2 ^ 64`
exactly as the Go `uint64` addition does; the fractional contribution
is the exact binary64 simulation `fracContribution` of Go's
`uint64(float64(f) * (float64(unit) / scale))`. The loop consumes at
least one character per iteration, so fuel `|s| + 1` never runs out;
exhausted fuel falls back to the invalid-duration error. -/
def parseDurationLoop (orig : String) : Nat → List Char → Nat → Except String Nat
  | 0, _, _ => Except.error (errInvalidDuration orig)
  | _, [], d => Except.ok d
  | fuel + 1, c :: s0, d =>
    let s := c :: s0
    if ¬ (c = '.' ∨ goIsDigit c) then Except.error (errInvalidDuration orig)
    else
      match leadingInt s 0 with
      | none => Except.error (errInvalidDuration orig)
      | some (v, s1) =>
        let pre : Bool := s1.length ≠ s.length
        let (f, k, s2, post) : Nat × Nat × List Char × Bool :=
          match s1 with
          | '.' :: s1' =>
            let (f, k, s2) := leadingFraction s1' 0 0 false
            (f, k, s2, s2.length ≠ s1'.length)
          | _ => (0, 0, s1, false)
        if ¬ pre ∧ ¬ post then Except.error (errInvalidDuration orig)
        else
          let (u, s3) := consumeUnit s2
          if u = [] then Except.error (errMissingUnit orig)
          else
            match unitMap (String.mk u) with
            | none => Except.error (errUnknownUnit (String.mk u) orig)
            | some unit =>
              if v > 2 ^ 63 / unit then Except.error (errInvalidDuration orig)
              else
                let v1 := v * unit
                let v2 := if f > 0 then v1 + fracContribution f unit k else v1
                if f > 0 ∧ v2 > 2 ^ 63 then Except.error (errInvalidDuration orig)
                else
                  let d1 := (d + v2) % 2 ^ 64
                  if d1 > 2 ^ 63 then Except.error (errInvalidDuration orig)
                  else parseDurationLoop orig fuel s3 d1

/-- Go `time.ParseDuration`: sign, the `"0"` special case, then the
segment loop; the result is an `int64` nanosecond count. -/
def parseDuration (s : String) : Except String Int :=
  let orig := s
  let (neg, s1) : Bool × List Char :=
    match s.data with
    | [] => (false, [])
    | c :: rest => if c = '-' ∨ c = '+' then (c = '-', rest) else (false, c :: rest)
  if s1 = ['0'] then Except.ok 0
  else if s1 = [] then Except.error (errInvalidDuration orig)
  else
    match parseDurationLoop orig (s1.length + 1) s1 0 with
    | Except.error e => Except.error e
    | Except.ok d =>
      if neg then Except.ok (-(d : Int))
      else if d > 2 ^ 63 - 1 then Except.error (errInvalidDuration orig)
      else Except.ok (d : Int)

/-- Go `strconv.Atoi`: optional sign, non-empty digits, value within
`int64` (out-of-range input is an error, which the caller treats as
failure). -/
def atoi (s : String) : Option Int :=
  match s.data with
  | [] => none
  | c :: rest =>
    let (neg, digits) : Bool × List Char :=
      if c = '-' ∨ c = '+' then (c = '-', rest) else (false, c :: rest)
    if digits = [] ∨ ¬ digits.all goIsDigit then none
    else
      let n : Nat := digits.foldl (fun a d => a * 10 + digitVal d) 0
      let v : Int := if neg then -(n : Int) else (n : Int)
      if v < -(2 ^ 63) ∨ v > 2 ^ 63 - 1 then none else some v

/-- Reduce an integer into the signed 64-bit range, as Go `int64`
arithmetic wraps. -/
def wrap64 (n : Int) : Int := (n + 2 ^ 63) % 2 ^ 64 - 2 ^ 63

/-- `Server.parseDelayParam` on the raw `delay` query value: empty means
no delay; otherwise `time.ParseDuration`, falling back to
`strconv.Atoi` milliseconds (`time.Duration(ms) * time.Millisecond` is
`int64` multiplication, hence `wrap64`); if both fail, the duration
parser's error is returned. -/
def parseDelayParam (delayStr : String) : Except String Int :=
  if delayStr = "" then Except.ok 0
  else
    match parseDuration delayStr with
    | Except.ok delay => Except.ok delay
    | Except.error err =>
      match atoi delayStr with
      | some ms => Except.ok (wrap64 (ms * 1000000))
      | none => Except.error err

/-! ## Sleeper, composition, and the request resolver -/

/-- `Server.sleepWithCancellation`: non-positive delays complete
immediately; otherwise the timer races the shutdown broadcast and the
result says whether the sleep completed (`true`) or was cancelled
(`false`). `shutdownWins` abstracts which event fires first. -/
def sleepWithCancellation (delay : Int) (shutdownWins : Bool) : Bool :=
  if delay ≤ 0 then true else !shutdownWins

/-- The response description handed to the transport: status code, the
response header state, and the body. -/
structure Response where
  status : Int
  headers : List (String × String)
  body : String
  deriving Repr, DecidableEq

/-- What a resolution run does at its boundary: emit a response, or emit
nothing at all (shutdown abort). -/
inductive HandleOutcome where
  | emitted (r : Response)
  | aborted
  deriving Repr, DecidableEq

/-- The composition tail of `Server.handleRoute`, parametric in the
chosen source (body, headers, status come either from the matched
condition or from the route): set status, apply the chosen headers, add
`Content-Type: text/plain` when absent or empty, and, when the route's
dump flag is set, replace the body with the request dump and force
`Content-Type: application/json`. -/
def composeFrom (responseBody : String) (responseHeaders : List (String × String))
    (responseStatus : Int) (dump : Bool) (req : Request) : Response :=
  let hs := responseHeaders.foldl (fun acc p => headerSet acc p.1 p.2) []
  let hs :=
    if (headerPeek hs "Content-Type").getD "" = "" then
      headerSet hs "Content-Type" "text/plain"
    else hs
  if dump then
    { status := responseStatus,
      headers := headerSet hs "Content-Type" "application/json",
      body := requestDumpJSON (extractPairs req.headerPairs) (extractPairs req.queryPairs) }
  else
    { status := responseStatus, headers := hs, body := responseBody }

/-- Condition matching and response composition of `Server.handleRoute`:
the first matching condition supplies body, headers, and status;
otherwise the route's own getters do. -/
def composeResponse (route : Route) (req : Request) : Response :=
  match firstMatch route.Conditions (extractPairs req.headerPairs) with
  | some c =>
    composeFrom c.GetResponseBody c.GetResponseHeaders c.GetResponseStatus
      route.GetResponseDump req
  | none =>
    composeFrom route.GetResponseBody route.GetResponseHeaders route.GetResponseStatus
      route.GetResponseDump req

/-- `Server.handleRoute`: parse the delay parameter (a failure emits the
400 plain-text response and stops); a positive delay sleeps and, when
cancelled by shutdown, emits nothing; otherwise the composed response is
emitted. -/
def handleRoute (route : Route) (req : Request) (shutdownWins : Bool) : HandleOutcome :=
  match parseDelayParam req.delayRaw with
  | Except.error err =>
    HandleOutcome.emitted
      { status := 400, headers := [("Content-Type", "text/plain")],
        body := "Invalid delay parameter: " ++ err }
  | Except.ok delay =>
    if delay > 0 then
      if sleepWithCancellation delay shutdownWins then
        HandleOutcome.emitted (composeResponse route req)
      else HandleOutcome.aborted
    else HandleOutcome.emitted (composeResponse route req)

/-! ## Spec-side definitions for the refinement claims -/

/-- Written from the spec: the response built from a route's own
defaults alone (body, headers, defaulted status, defaulted
Content-Type), independent of the request. -/
def routeDefaultsResponse (route : Route) : Response :=
  let hs := route.GetResponseHeaders.foldl (fun acc p => headerSet acc p.1 p.2) []
  let hs :=
    if (headerPeek hs "Content-Type").getD "" = "" then
      headerSet hs "Content-Type" "text/plain"
    else hs
  { status := route.GetResponseStatus, headers := hs, body := route.GetResponseBody }

/-- Written from the spec: the response built from a matched condition's
overrides alone, independent of the route's own defaults. -/
def conditionResponse (c : RouteCondition) : Response :=
  let hs := c.GetResponseHeaders.foldl (fun acc p => headerSet acc p.1 p.2) []
  let hs :=
    if (headerPeek hs "Content-Type").getD "" = "" then
      headerSet hs "Content-Type" "text/plain"
    else hs
  { status := c.GetResponseStatus, headers := hs, body := c.GetResponseBody }

/-! ## Helper lemmas -/

/-- Two booleans agreeing as propositions are equal. -/
theorem bool_eq_of_iff {a b : Bool} (h : a = true ↔ b = true) : a = b := by
  cases a <;> cases b <;> simp_all

/-- `List.all` is invariant under permutation. -/
theorem all_perm {α : Type} {l₁ l₂ : List α} (h : l₁.Perm l₂) (p : α → Bool) :
    l₁.all p = l₂.all p := by
  apply bool_eq_of_iff
  rw [List.all_eq_true, List.all_eq_true]
  exact ⟨fun hall x hx => hall x (h.mem_iff.mpr hx),
    fun hall x hx => hall x (h.mem_iff.mp hx)⟩

/-- `List.any` is invariant under permutation. -/
theorem any_perm {α : Type} {l₁ l₂ : List α} (h : l₁.Perm l₂) (p : α → Bool) :
    l₁.any p = l₂.any p := by
  apply bool_eq_of_iff
  rw [List.any_eq_true, List.any_eq_true]
  exact ⟨fun ⟨x, hx, hp⟩ => ⟨x, h.mem_iff.mp hx, hp⟩,
    fun ⟨x, hx, hp⟩ => ⟨x, h.mem_iff.mpr hx, hp⟩⟩

/-- `List.find?` returns exactly the first element satisfying the
predicate: characterization by the least matching index. -/
theorem find?_first_index {α : Type} (p : α → Bool) :
    ∀ (l : List α) (a : α),
      l.find? p = some a ↔
        ∃ (i : Nat) (hi : i < l.length),
          l.get ⟨i, hi⟩ = a ∧ p a = true ∧
          ∀ (j : Nat) (hj : j < l.length), j < i → p (l.get ⟨j, hj⟩) = false
  | [], a => by simp [List.find?]
  | x :: xs, a => by
    by_cases hx : p x = true
    · rw [List.find?_cons_of_pos _ hx]
      constructor
      · intro h
        injection h with h
        subst h
        exact ⟨0, Nat.succ_pos _, rfl, hx, fun j hj hj0 => absurd hj0 (Nat.not_lt_zero j)⟩
      · rintro ⟨i, hi, hget, hpa, hmin⟩
        cases i with
        | zero => rw [← hget]; rfl
        | succ n =>
          have h0 : p ((x :: xs).get ⟨0, Nat.succ_pos _⟩) = false :=
            hmin 0 (Nat.succ_pos _) (Nat.succ_pos n)
          simp only [List.get] at h0
          rw [hx] at h0
          exact absurd h0 (by simp)
    · have hx' : p x = false := by simpa using hx
      rw [List.find?_cons_of_neg _ (by simp [hx'])]
      rw [find?_first_index p xs a]
      constructor
      · rintro ⟨i, hi, hget, hpa, hmin⟩
        refine ⟨i + 1, Nat.succ_lt_succ hi, hget, hpa, ?_⟩
        intro j hj hj0
        cases j with
        | zero => simpa using hx'
        | succ m =>
          exact hmin m (Nat.lt_of_succ_lt_succ hj) (Nat.lt_of_succ_lt_succ hj0)
      · rintro ⟨i, hi, hget, hpa, hmin⟩
        cases i with
        | zero =>
          simp only [List.get] at hget
          rw [hget] at hx'
          rw [hpa] at hx'
          exact absurd hx' (by simp)
        | succ n =>
          refine ⟨n, Nat.lt_of_succ_lt_succ hi, hget, hpa, ?_⟩
          intro j hj hj0
          exact hmin (j + 1) (Nat.succ_lt_succ hj) (Nat.succ_lt_succ hj0)

/-- Looking up the key just written by `setPair` yields the new value. -/
theorem find?_setPair_same (hs : List (String × String)) (k v : String) :
    (setPair hs k v).find? (fun p => p.1 == k) = some (k, v) := by
  induction hs with
  | nil => simp [setPair]
  | cons p rest ih =>
    by_cases h : p.1 = k
    · simp [setPair, h]
    · simp [setPair, h, List.find?, ih]

/-- `Peek` right after `Set` of the same key returns the new value. -/
theorem headerPeek_headerSet (hs : List (String × String)) (k v : String) :
    headerPeek (headerSet hs k v) k = some v := by
  simp [headerPeek, headerSet, find?_setPair_same]

/-! ## Concrete fixtures used by witnesses and counterexamples -/

/-- A plain route with no conditions (the spec's `/hello` route). -/
def route0 : Route :=
  { Path := "/hello", Method := "", ResponseBody := "Hello, World!",
    ResponseHeader := none, ResponseStatus := 0, ResponseDump := false, Conditions := [] }

/-- A request with no headers, no query parameters, no delay. -/
def reqPlain : Request := { headerPairs := [], queryPairs := [], delayRaw := "" }

/-! ## Claim theorems -/

/-- C1: condition matching iterates the route's conditions in declared
order and selects the first condition such that every required
`(name, value)` pair is matched by some request header, names compared
case-insensitively and values byte-for-byte; an empty required-header
mapping matches any request; if no condition matches, composition falls
back to the route's own defaults. -/
theorem condition_matching_first_in_declared_order (route : Route) (req : Request)
    (hs : List (String × String)) :
    (∀ c : RouteCondition, c.MatchesHeaders hs = true ↔
        ∀ p ∈ c.HeaderMatch, ∃ q ∈ hs, eqFold p.1 q.1 = true ∧ q.2 = p.2)
  ∧ (∀ c : RouteCondition,
        firstMatch route.Conditions hs = some c ↔
          ∃ (i : Nat) (hi : i < route.Conditions.length),
            route.Conditions.get ⟨i, hi⟩ = c ∧ c.MatchesHeaders hs = true ∧
            ∀ (j : Nat) (hj : j < route.Conditions.length), j < i →
              (route.Conditions.get ⟨j, hj⟩).MatchesHeaders hs = false)
  ∧ (∀ c : RouteCondition, c.HeaderMatch = [] → c.MatchesHeaders hs = true)
  ∧ (firstMatch route.Conditions (extractPairs req.headerPairs) = none →
      composeResponse route req =
        composeFrom route.GetResponseBody route.GetResponseHeaders route.GetResponseStatus
          route.GetResponseDump req) := by
  refine ⟨?_, ?_, ?_, ?_⟩
  · intro c
    simp [RouteCondition.MatchesHeaders, List.all_eq_true, List.any_eq_true]
  · intro c
    exact find?_first_index _ route.Conditions c
  · intro c h
    simp [RouteCondition.MatchesHeaders, h]
  · intro h
    simp [composeResponse, h]

/-- C1 witness: instantiation at the spec's case-insensitive example. -/
theorem condition_matching_first_in_declared_order_witness :
    (RouteCondition.mk [("X-API-Key", "secret")] "ok" none 0).MatchesHeaders
      [("x-api-key", "secret")] = true :=
  ((condition_matching_first_in_declared_order route0 reqPlain
      [("x-api-key", "secret")]).1 _).mpr (by decide)

/-- C9: header-condition matching is a pure function of its two
mappings, and its result is independent of the iteration order of both
the required-header mapping and the request-header mapping. -/
theorem matching_deterministic_and_order_independent (c : RouteCondition)
    (hm rh₁ rh₂ : List (String × String))
    (hperm : c.HeaderMatch.Perm hm) (rperm : rh₁.Perm rh₂) :
    c.MatchesHeaders rh₁ =
      (RouteCondition.mk hm c.ResponseBody c.ResponseHeader c.ResponseStatus).MatchesHeaders
        rh₂ := by
  have hinner :
      (fun e : String × String => rh₁.any fun a => eqFold e.1 a.1 && a.2 == e.2) =
        fun e : String × String => rh₂.any fun a => eqFold e.1 a.1 && a.2 == e.2 := by
    funext e
    exact any_perm rperm _
  show (c.HeaderMatch.all fun e => rh₁.any fun a => eqFold e.1 a.1 && a.2 == e.2) =
    hm.all fun e => rh₂.any fun a => eqFold e.1 a.1 && a.2 == e.2
  rw [hinner]
  exact all_perm hperm _

/-- C9 witness: the same matching outcome under permuted mappings. -/
theorem matching_deterministic_and_order_independent_witness :
    (RouteCondition.mk [("A", "1"), ("B", "2")] "" none 0).MatchesHeaders
        [("b", "2"), ("a", "1")] =
      (RouteCondition.mk [("B", "2"), ("A", "1")] "" none 0).MatchesHeaders
        [("a", "1"), ("b", "2")] :=
  matching_deterministic_and_order_independent
    (RouteCondition.mk [("A", "1"), ("B", "2")] "" none 0)
    [("B", "2"), ("A", "1")] [("b", "2"), ("a", "1")] [("a", "1"), ("b", "2")]
    (by decide) (by decide)

/-- C2: a non-empty delay parameter that fails both the duration parse
and the integer fallback makes route handling emit the 400 plain-text
response carrying the duration parser's error message, and nothing
else: no delay, no matching, no normal response. -/
theorem invalid_delay_emits_400_and_stops (route : Route) (req : Request) (sw : Bool)
    (e : String) (hne : req.delayRaw ≠ "")
    (hdur : parseDuration req.delayRaw = Except.error e)
    (hint : atoi req.delayRaw = none) :
    parseDelayParam req.delayRaw = Except.error e ∧
    handleRoute route req sw =
      HandleOutcome.emitted
        { status := 400, headers := [("Content-Type", "text/plain")],
          body := "Invalid delay parameter: " ++ e } := by
  have hp : parseDelayParam req.delayRaw = Except.error e := by
    simp [parseDelayParam, hne, hdur, hint]
  exact ⟨hp, by simp [handleRoute, hp]⟩

/-- C2 witness: the spec's `"invalid"` delay value. -/
theorem invalid_delay_emits_400_and_stops_witness :
    handleRoute route0 { headerPairs := [], queryPairs := [], delayRaw := "invalid" } false =
      HandleOutcome.emitted
        { status := 400, headers := [("Content-Type", "text/plain")],
          body := "Invalid delay parameter: time: invalid duration \"invalid\"" } :=
  (invalid_delay_emits_400_and_stops route0
    { headerPairs := [], queryPairs := [], delayRaw := "invalid" } false
    "time: invalid duration \"invalid\"" (by decide) (by rfl) (by rfl)).2

/-- C4: when a positive resolved delay's sleep is cancelled by the
shutdown signal, the resolver terminates with the aborted outcome,
which carries no status, headers, or body. -/
theorem cancelled_sleep_emits_nothing (route : Route) (req : Request) (d : Int)
    (hp : parseDelayParam req.delayRaw = Except.ok d) (hpos : 0 < d) :
    handleRoute route req true = HandleOutcome.aborted := by
  have hs : sleepWithCancellation d true = false := by
    simp [sleepWithCancellation, not_le.mpr hpos]
  simp [handleRoute, hp, hpos, hs]

/-- C4 witness: a 10ms delay cancelled by shutdown. -/
theorem cancelled_sleep_emits_nothing_witness :
    handleRoute route0 { headerPairs := [], queryPairs := [], delayRaw := "10ms" } true =
      HandleOutcome.aborted :=
  cancelled_sleep_emits_nothing route0
    { headerPairs := [], queryPairs := [], delayRaw := "10ms" } 10000000 (by rfl) (by decide)

/-- C6 counterexample: a configured status of `-1` is returned
unchanged by both getters, not defaulted to 200, refuting the claim for
negative configured statuses. -/
theorem status_getter_negative_counterexample :
    (Route.mk "/" "" "" none (-1) false []).GetResponseStatus = -1 ∧
    (RouteCondition.mk [] "" none (-1)).GetResponseStatus = -1 ∧
    ((-1 : Int) ≠ 200) := by decide

/-- C6 amended: the status getters return 200 exactly when the
configured status is zero; any nonzero configured value, negative ones
included, is returned unchanged. -/
theorem status_getter_defaults_only_on_zero (r : Route) (c : RouteCondition) :
    (r.ResponseStatus = 0 → r.GetResponseStatus = 200) ∧
    (r.ResponseStatus ≠ 0 → r.GetResponseStatus = r.ResponseStatus) ∧
    (c.ResponseStatus = 0 → c.GetResponseStatus = 200) ∧
    (c.ResponseStatus ≠ 0 → c.GetResponseStatus = c.ResponseStatus) :=
  ⟨fun h => by simp [Route.GetResponseStatus, h],
   fun h => by simp [Route.GetResponseStatus, h],
   fun h => by simp [RouteCondition.GetResponseStatus, h],
   fun h => by simp [RouteCondition.GetResponseStatus, h]⟩

/-- C6 amended witness: defaulting at zero and pass-through at 404. -/
theorem status_getter_defaults_only_on_zero_witness :
    (Route.mk "/" "" "" none 0 false []).GetResponseStatus = 200 ∧
    (Route.mk "/" "" "" none 404 false []).GetResponseStatus = 404 :=
  ⟨(status_getter_defaults_only_on_zero (Route.mk "/" "" "" none 0 false [])
      (RouteCondition.mk [] "" none 0)).1 rfl,
   (status_getter_defaults_only_on_zero (Route.mk "/" "" "" none 404 false [])
      (RouteCondition.mk [] "" none 0)).2.1 (by decide)⟩

/-- C7: a non-positive resolved delay makes the sleeper report
completion immediately, and route handling emits the route's normal
composed response. -/
theorem nonpositive_delay_completes_and_emits (route : Route) (req : Request) (sw : Bool)
    (d : Int) (hd : d ≤ 0) (hp : parseDelayParam req.delayRaw = Except.ok d) :
    sleepWithCancellation d sw = true ∧
    handleRoute route req sw = HandleOutcome.emitted (composeResponse route req) := by
  refine ⟨by simp [sleepWithCancellation, hd], ?_⟩
  simp [handleRoute, hp, not_lt.mpr hd]

/-- C7 witness: the spec's `"-100ms"` negative delay. -/
theorem nonpositive_delay_completes_and_emits_witness :
    sleepWithCancellation (-100000000) false = true ∧
    handleRoute route0 { headerPairs := [], queryPairs := [], delayRaw := "-100ms" } false =
      HandleOutcome.emitted
        (composeResponse route0
          { headerPairs := [], queryPairs := [], delayRaw := "-100ms" }) :=
  nonpositive_delay_completes_and_emits route0
    { headerPairs := [], queryPairs := [], delayRaw := "-100ms" } false
    (-100000000) (by decide) (by rfl)

/-- C3: on a route whose dump flag is set, whatever was emitted has the
request-dump JSON (exactly the keys `headers` and `query_parameters`,
2-space indentation, from the extracted request headers and query
parameters) as its body, and its Content-Type response header reads
`application/json`, whatever Content-Type composition set earlier. -/
theorem dump_replaces_body_and_forces_json (route : Route) (req : Request) (sw : Bool)
    (d : Int) (r : Response)
    (hdump : route.ResponseDump = true)
    (hp : parseDelayParam req.delayRaw = Except.ok d)
    (hout : handleRoute route req sw = HandleOutcome.emitted r) :
    r.body = requestDumpJSON (extractPairs req.headerPairs) (extractPairs req.queryPairs) ∧
    headerPeek r.headers "Content-Type" = some "application/json" := by
  have halt : handleRoute route req sw = HandleOutcome.emitted (composeResponse route req)
      ∨ handleRoute route req sw = HandleOutcome.aborted := by
    simp only [handleRoute, hp]
    by_cases h1 : (0 : Int) < d
    · simp only [gt_iff_lt, h1, if_true]
      by_cases h2 : sleepWithCancellation d sw = true
      · left; rw [if_pos h2]
      · right; rw [if_neg h2]
    · left; simp [h1]
  rcases halt with h | h
  · rw [hout] at h
    injection h with h
    subst h
    cases hfm : firstMatch route.Conditions (extractPairs req.headerPairs) with
    | some c =>
      constructor
      · simp [composeResponse, hfm, composeFrom, Route.GetResponseDump, hdump]
      · simp [composeResponse, hfm, composeFrom, Route.GetResponseDump, hdump,
          headerPeek_headerSet]
    | none =>
      constructor
      · simp [composeResponse, hfm, composeFrom, Route.GetResponseDump, hdump]
      · simp [composeResponse, hfm, composeFrom, Route.GetResponseDump, hdump,
          headerPeek_headerSet]
  · rw [hout] at h
    exact absurd h (by simp)

/-- A dump-enabled route with a non-empty configured body and a
configured Content-Type, used to exercise the dump override. -/
def routeDump : Route :=
  { Path := "/dump", Method := "", ResponseBody := "Hello",
    ResponseHeader := some [("Content-Type", "text/html")], ResponseStatus := 0,
    ResponseDump := true, Conditions := [] }

/-- A request carrying one header and one query parameter. -/
def reqDump : Request :=
  { headerPairs := [("Host", "example")], queryPairs := [("a", "1")], delayRaw := "" }

/-- C3 witness: the dump route's emitted body and Content-Type. -/
theorem dump_replaces_body_and_forces_json_witness :
    (composeResponse routeDump reqDump).body =
      requestDumpJSON (extractPairs reqDump.headerPairs) (extractPairs reqDump.queryPairs) ∧
    headerPeek (composeResponse routeDump reqDump).headers "Content-Type" =
      some "application/json" :=
  dump_replaces_body_and_forces_json routeDump reqDump false 0
    (composeResponse routeDump reqDump) (by rfl) (by rfl) (by rfl)

/-- C5 counterexample: `"10000000000000"` (10^13) passes the integer
fallback, but 10^13 milliseconds is 10^19 nanoseconds, which overflows
the signed 64-bit duration: the code yields the wrapped negative
duration, not "that many milliseconds". -/
theorem integer_delay_overflow_counterexample :
    atoi "10000000000000" = some 10000000000000 ∧
    parseDelayParam "10000000000000" = Except.ok (-8446744073709551616) ∧
    (10000000000000 * 1000000 : Int) = 10000000000000000000 ∧
    ((-8446744073709551616 : Int) ≠ 10000000000000000000) :=
  ⟨by rfl, by rfl, by norm_num, by norm_num⟩

/-- C5 amended: empty input resolves to zero with no error; input the
duration grammar accepts resolves to that duration; otherwise input
parseable as a bare signed 64-bit decimal integer resolves to that many
milliseconds reduced to a signed 64-bit nanosecond count (wrapping on
overflow); any other non-empty input propagates the duration parser's
error. -/
theorem delay_resolution_cases (s : String) :
    (s = "" → parseDelayParam s = Except.ok 0) ∧
    (∀ d : Int, parseDuration s = Except.ok d → parseDelayParam s = Except.ok d) ∧
    (∀ (e : String) (n : Int), parseDuration s = Except.error e → atoi s = some n →
      parseDelayParam s = Except.ok (wrap64 (n * 1000000))) ∧
    (∀ e : String, s ≠ "" → parseDuration s = Except.error e → atoi s = none →
      parseDelayParam s = Except.error e) := by
  refine ⟨fun h => by simp [parseDelayParam, h], ?_, ?_, ?_⟩
  · intro d hd
    by_cases h : s = ""
    · rw [h] at hd
      rw [show parseDuration "" = Except.error (errInvalidDuration "") from rfl] at hd
      exact absurd hd (by simp)
    · simp [parseDelayParam, h, hd]
  · intro e n he hn
    by_cases h : s = ""
    · rw [h] at hn
      rw [show atoi "" = none from rfl] at hn
      exact absurd hn (by simp)
    · simp [parseDelayParam, h, he, hn]
  · intro e hne he hn
    simp [parseDelayParam, hne, he, hn]

/-- C5 amended witness: the spec's `"250"` integer fallback. -/
theorem delay_resolution_cases_witness :
    parseDelayParam "250" = Except.ok 250000000 :=
  ((delay_resolution_cases "250").2.2.1 "time: missing unit in duration \"250\"" 250
    (by rfl) (by rfl)).trans (by rfl)

/-- A dump-enabled route with an empty condition list and a non-empty
configured body. -/
def routeDumpNoConds : Route :=
  { Path := "/d", Method := "", ResponseBody := "Hello", ResponseHeader := none,
    ResponseStatus := 0, ResponseDump := true, Conditions := [] }

/-- C8 counterexample: on a dump-enabled route with no conditions, the
emitted body is the request-dump JSON, not the route's configured
body, refuting the claim for dump routes. -/
theorem empty_conditions_dump_counterexample :
    handleRoute routeDumpNoConds reqPlain false =
      HandleOutcome.emitted
        { status := 200, headers := [("Content-Type", "application/json")],
          body := "\x7b\n  \"headers\": \x7b\x7d,\n  \"query_parameters\": \x7b\x7d\n\x7d" } ∧
    "\x7b\n  \"headers\": \x7b\x7d,\n  \"query_parameters\": \x7b\x7d\n\x7d" ≠
      routeDumpNoConds.GetResponseBody := by
  constructor
  · rfl
  · decide

/-- C8 amended: on a route with an empty condition list and an unset
dump flag, any request with a valid or absent delay parameter whose
sleep is not cancelled gets exactly the route's own defaults: its body,
its headers applied verbatim, its status defaulted to 200 at zero, and
Content-Type defaulted to plain text when absent. -/
theorem empty_conditions_yield_route_defaults (route : Route) (req : Request) (sw : Bool)
    (d : Int) (hconds : route.Conditions = []) (hdump : route.ResponseDump = false)
    (hp : parseDelayParam req.delayRaw = Except.ok d)
    (hsleep : sleepWithCancellation d sw = true) :
    handleRoute route req sw = HandleOutcome.emitted (routeDefaultsResponse route) := by
  have hcomp : composeResponse route req = routeDefaultsResponse route := by
    simp only [composeResponse, firstMatch, hconds, List.find?]
    simp [composeFrom, routeDefaultsResponse, Route.GetResponseDump, hdump]
  simp only [handleRoute, hp]
  by_cases h1 : (0 : Int) < d
  · simp only [gt_iff_lt, h1, if_true, hsleep, hcomp]
  · simp [h1, hcomp]

/-- C8 amended witness: the plain `/hello` route with no delay. -/
theorem empty_conditions_yield_route_defaults_witness :
    handleRoute route0 reqPlain false =
      HandleOutcome.emitted (routeDefaultsResponse route0) :=
  empty_conditions_yield_route_defaults route0 reqPlain false 0 rfl rfl (by rfl) (by rfl)

/-- A catch-all condition with an empty override body and a nil
override-header map. -/
def condCatchAllEmpty : RouteCondition :=
  { HeaderMatch := [], ResponseBody := "", ResponseHeader := none, ResponseStatus := 0 }

/-- A dump-enabled route whose catch-all condition always matches. -/
def routeDumpWithCond : Route :=
  { Path := "/d2", Method := "", ResponseBody := "Hello", ResponseHeader := none,
    ResponseStatus := 0, ResponseDump := true, Conditions := [condCatchAllEmpty] }

/-- C10 counterexample: on a dump-enabled route, a matched condition
with an empty override body still yields a non-empty response body (the
request dump), refuting the claim for dump routes. -/
theorem matched_condition_dump_counterexample :
    firstMatch routeDumpWithCond.Conditions (extractPairs reqPlain.headerPairs) =
      some condCatchAllEmpty ∧
    condCatchAllEmpty.GetResponseBody = "" ∧
    (composeResponse routeDumpWithCond reqPlain).body ≠ "" := by
  refine ⟨by rfl, by rfl, by decide⟩

/-- C10 amended: on a route whose dump flag is unset, a matched
condition replaces the route's defaults wholesale: the composed
response is built from the condition's overrides alone, so an empty
override body gives an empty body and a nil override-header map gives
only the defaulted Content-Type header. -/
theorem matched_condition_overrides_wholesale (route : Route) (req : Request)
    (c : RouteCondition) (hdump : route.ResponseDump = false)
    (hmatch : firstMatch route.Conditions (extractPairs req.headerPairs) = some c) :
    composeResponse route req = conditionResponse c ∧
    (c.ResponseBody = "" → (composeResponse route req).body = "") ∧
    (c.ResponseHeader = none →
      (composeResponse route req).headers = [("Content-Type", "text/plain")]) := by
  have hmain : composeResponse route req = conditionResponse c := by
    simp only [composeResponse, hmatch]
    simp [composeFrom, conditionResponse, Route.GetResponseDump, hdump]
  refine ⟨hmain, fun hb => ?_, fun hh => ?_⟩
  · rw [hmain]
    simp [conditionResponse, RouteCondition.GetResponseBody, hb]
  · rw [hmain]
    simp only [conditionResponse, RouteCondition.GetResponseHeaders, hh]
    rfl

/-- The spec's `/api/secure` conditional override. -/
def condAuth : RouteCondition :=
  { HeaderMatch := [("Authorization", "Bearer T")], ResponseBody := "data-ok",
    ResponseHeader := none, ResponseStatus := 200 }

/-- The spec's `/api/secure` route. -/
def routeSecure : Route :=
  { Path := "/api/secure", Method := "", ResponseBody := "Unauthorized",
    ResponseHeader := none, ResponseStatus := 401, ResponseDump := false,
    Conditions := [condAuth] }

/-- A request carrying the authorization header the condition requires. -/
def reqAuth : Request :=
  { headerPairs := [("Authorization", "Bearer T")], queryPairs := [], delayRaw := "" }

/-- C10 amended witness: the matched condition's overrides alone make
up the response. -/
theorem matched_condition_overrides_wholesale_witness :
    composeResponse routeSecure reqAuth = conditionResponse condAuth :=
  (matched_condition_overrides_wholesale routeSecure reqAuth condAuth rfl (by rfl)).1

end Echo2
